import Mathlib

/-!
Verification of the InvestAnalyzer pipeline core: a shallow embedding of the InvestAnalyzer backend (Node/Express, `backend/server.js`,
`backend/ai/analyzeWithGemini.js`, `backend/routes/analysis.js`) together with the
frontend upload validation (`frontend/src/components/FileUpload.tsx`).

Modelling conventions:
* JavaScript numbers are modelled as `ℚ` (the code never relies on binary
  floating-point rounding; the fixed weight table and the 0–10 scores are exact
  decimals).  `Math.round` is `jsRound`, rounding half toward `+∞`.
* A JavaScript value that may be `undefined`/`null` is an `Option`; JS falsiness
  of a string (`undefined`, `null`, `""`) is handled by `jsOrStr`.
* Database rows mutated in place become explicit state records; the persisted
  status transitions of one Job become an inductive step relation `Step`.
* Fallible code returns `Except String`.
-/

namespace InvestAnalyzer

/-- JavaScript's `Math.round`: round half toward positive infinity. -/
def jsRound (q : ℚ) : ℤ := ⌊q + 1/2⌋

/-- JS `x || fallback` for an optional string: `undefined`, `null` and `""` are falsy. -/
def jsOrStr (x : Option String) (fallback : String) : String :=
  match x with
  | some s => if s = "" then fallback else s
  | none => fallback

/-- The nine scoring categories of the fixed rubric (`calculateOverallScore`,
`requiredCategories` in `server.js` / `analyzeWithGemini.js`). -/
inductive Category
  | problemStatement
  | solutionProduct
  | marketOpportunity
  | businessModel
  | competitiveLandscape
  | team
  | tractionMilestones
  | financialProjections
  | clarityPresentation
deriving DecidableEq

/-- The exact JSON key of each category. -/
def catName : Category → String
  | .problemStatement => "Problem Statement"
  | .solutionProduct => "Solution/Product"
  | .marketOpportunity => "Market Opportunity"
  | .businessModel => "Business Model"
  | .competitiveLandscape => "Competitive Landscape"
  | .team => "Team"
  | .tractionMilestones => "Traction/Milestones"
  | .financialProjections => "Financial Projections"
  | .clarityPresentation => "Clarity and Presentation"

/-- The categories in the iteration order of the `weights` object /
`requiredCategories` array (identical in the source). -/
def allCategories : List Category :=
  [.problemStatement, .solutionProduct, .marketOpportunity, .businessModel,
   .competitiveLandscape, .team, .tractionMilestones, .financialProjections,
   .clarityPresentation]

/-- The fixed weight table of `calculateOverallScore` (sums to 1). -/
def weight : Category → ℚ
  | .problemStatement => 0.10
  | .solutionProduct => 0.15
  | .marketOpportunity => 0.20
  | .businessModel => 0.15
  | .competitiveLandscape => 0.10
  | .team => 0.10
  | .tractionMilestones => 0.10
  | .financialProjections => 0.05
  | .clarityPresentation => 0.05

/-- One category entry of a parsed LLM response.  `score = none` models a
`score` field that is absent or not a JS number (`typeof score !== 'number'`). -/
structure CatData where
  score : Option ℚ
  qualitative_feedback : Option String
deriving DecidableEq

/-- The nine category entries of an analysis object.  `none` models a category
key that is absent (or falsy), i.e. the `!categoryData` branch. -/
abbrev Categories := Category → Option CatData

/-- The per-category contribution test of `calculateOverallScore`:
`categoryData && typeof categoryData.score === 'number' && score >= 0 && score <= 10`
contributes the score, everything else contributes 0. -/
def effScore (c : Option CatData) : ℚ :=
  match c with
  | some d =>
    match d.score with
    | some q => if 0 ≤ q ∧ q ≤ 10 then q else 0
    | none => 0
  | none => 0

/-- The function `calculateOverallScore` (`server.js` lines 318–365, identically
`analyzeWithGemini.js` lines 96–126): weighted sum of the nine category scores
over the fixed weight table, scaled to 0–100, rounded, clamped to `[0, 100]`.
The `totalWeightUsed` guard is transcribed although it is dead for the fixed
table (the weights sum to exactly 1). -/
def calculateOverallScore (cats : Categories) : ℤ :=
  let totalScore : ℚ := (allCategories.map (fun c => effScore (cats c) * weight c)).sum
  let totalWeightUsed : ℚ := (allCategories.map (fun c => weight c)).sum
  if |totalWeightUsed - 1| > 1/1000 ∧ totalWeightUsed = 0 then 0
  else
    let effectiveTotalWeight : ℚ := 1
    let overall := jsRound (totalScore / effectiveTotalWeight * 10)
    max 0 (min 100 overall)

/-- The Scoring Aggregator as the spec words it (§4.3): given the nine raw
category scores, `overall_score = round(Σ(score_i/10 × weight_i) × 100)`,
clamped to `[0,100]`.  Stated from the spec to compare with
`calculateOverallScore`. -/
def spec_overallScore (score : Category → ℚ) : ℤ :=
  max 0 (min 100 (jsRound ((allCategories.map (fun c => score c / 10 * weight c)).sum * 100)))

/-- The raw score a category supplies per the spec's words (§4.3): "Any
category absent or invalid contributes 0" — invalid being a score field that is
not a number or a numeric score outside `[0, 10]` (the spec's validation policy
and C5 both read "invalid" that way).  Stated from the spec to compare with the
source's `effScore` contribution test. -/
def suppliedScore (cats : Categories) (c : Category) : ℚ :=
  match cats c with
  | some d =>
    match d.score with
    | some q => if 0 ≤ q ∧ q ≤ 10 then q else 0
    | none => 0
  | none => 0

lemma effScore_eq_suppliedScore (cats : Categories) (c : Category) :
    effScore (cats c) = suppliedScore cats c := by
  unfold effScore suppliedScore
  cases cats c with
  | none => rfl
  | some d => cases d.score <;> rfl

lemma weights_sum_one : ((allCategories.map (fun c => weight c)).sum : ℚ) = 1 := by
  norm_num [allCategories, weight]

/-- C1: for every analysis object — each category absent, invalid (score not a
number or outside `[0,10]`), or carrying a numeric score in `[0,10]` —
`calculateOverallScore` equals the spec's fixed-weight formula
`round(Σ(score_i/10 × weight_i) × 100)` clamped to `[0,100]`, where an absent or
invalid category supplies score 0 while its weight still counts toward the
fixed denominator of 1, and the result lies within `[0,100]`. -/
theorem overallScore_matches_spec_formula (cats : Categories) :
    calculateOverallScore cats = spec_overallScore (suppliedScore cats) ∧
    0 ≤ calculateOverallScore cats ∧ calculateOverallScore cats ≤ 100 := by
  have hdead : ¬ (|((allCategories.map (fun c => weight c)).sum : ℚ) - 1| > 1/1000 ∧
      ((allCategories.map (fun c => weight c)).sum : ℚ) = 0) := by
    rw [weights_sum_one]; norm_num
  have hcalc : calculateOverallScore cats =
      max 0 (min 100 (jsRound
        ((allCategories.map (fun c => effScore (cats c) * weight c)).sum / 1 * 10))) := by
    simp only [calculateOverallScore, if_neg hdead]
  refine ⟨?_, ?_, ?_⟩
  · rw [hcalc]
    unfold spec_overallScore
    congr 2
    simp only [allCategories, List.map_cons, List.map_nil, List.sum_cons, List.sum_nil,
      effScore_eq_suppliedScore]
    ring_nf
  · rw [hcalc]; exact le_max_left 0 _
  · rw [hcalc]
    exact max_le (by norm_num) (min_le_left 100 _)

/-- A concrete analysis object with one out-of-range score (Problem Statement
at 20, the other eight categories at 10): the invalid category contributes 0,
so both the code and the spec formula give 90, not 100. -/
def outOfRangeCats : Categories := fun c =>
  match c with
  | .problemStatement => some ⟨some 20, none⟩
  | _ => some ⟨some 10, none⟩

/-- Witness for C1 at `outOfRangeCats`, an input with an out-of-range score:
the equation holds there and both sides evaluate to 90 (the invalid category
contributed 0 against its full weight). -/
theorem overallScore_matches_spec_formula_witness :
    (calculateOverallScore outOfRangeCats =
        spec_overallScore (suppliedScore outOfRangeCats) ∧
      0 ≤ calculateOverallScore outOfRangeCats ∧
      calculateOverallScore outOfRangeCats ≤ 100) ∧
    calculateOverallScore outOfRangeCats = 90 := by
  refine ⟨overallScore_matches_spec_formula outOfRangeCats, ?_⟩
  have hdead : ¬ (|((allCategories.map (fun c => weight c)).sum : ℚ) - 1| > 1/1000 ∧
      ((allCategories.map (fun c => weight c)).sum : ℚ) = 0) := by
    rw [weights_sum_one]; norm_num
  have harg : ((allCategories.map (fun c => effScore (outOfRangeCats c) * weight c)).sum : ℚ)
      = 9 := by
    norm_num [allCategories, outOfRangeCats, effScore, weight]
  simp only [calculateOverallScore, if_neg hdead, harg]
  norm_num [jsRound]

/-! ## The Job status machine

One row of `analysis_results`, restricted to the fields the invariants speak
about.  `saveAnalysisToDB` inserts the row with `processing_status = 'PENDING'`
and a null `pdf_s3_key`; the upload handler of `server.js` then advances the
status stage by stage via `updateAnalysisStatus`, records the PDF key together
with `COMPLETED` via `updatePdfKeyAndComplete`, and flips to `FAILED` in its
catch block; the download route of `routes/analysis.js` flips a job whose
stored PDF fails the S3 HEAD check to `FILE_UNAVAILABLE`. -/

inductive Status
  | PENDING
  | UPLOADING_DECK
  | EXTRACTING_TEXT
  | ANALYZING_AI
  | SAVING_ANALYSIS
  | GENERATING_PDF
  | UPLOADING_PDF
  | COMPLETED
  | FAILED
  | FILE_UNAVAILABLE
deriving DecidableEq

/-- A status from which the upload handler's catch block can still run
(the pipeline stages; the three terminal statuses are excluded). -/
def nonTerminal : Status → Bool
  | .COMPLETED | .FAILED | .FILE_UNAVAILABLE => false
  | _ => true

structure Job where
  status : Status
  pdf_s3_key : Option String
deriving DecidableEq

/-- The row as inserted by `saveAnalysisToDB`: status `'PENDING'`, no PDF key. -/
def initJob : Job := ⟨.PENDING, none⟩

/-- One persisted transition of a Job row.

* The six stage constructors are the successive `updateAnalysisStatus` calls of
  the upload handler (`server.js` lines 828–866), each of which only changes
  `processing_status`.
* `completeWithKey` is `updatePdfKeyAndComplete` (lines 463–487): it stores the
  PDF key and sets `COMPLETED` in the same UPDATE.
* `failStage` is the handler's catch block (line 897): it can fire at any
  pipeline stage; after `COMPLETED` the only remaining calls
  (`sendCompletionEmail`, the response) catch internally and do not throw.
* `downloadFlip` is the download route (`routes/analysis.js` lines 178–189): it
  is reached only when the stored `pdf_s3_key` is truthy and the status is not
  `FAILED`, and on an S3 HEAD failure it updates only `processing_status`,
  leaving `pdf_s3_key` untouched. -/
inductive Step : Job → Job → Prop
  | uploadDeck (j : Job) : j.status = .PENDING →
      Step j { j with status := .UPLOADING_DECK }
  | extractText (j : Job) : j.status = .UPLOADING_DECK →
      Step j { j with status := .EXTRACTING_TEXT }
  | analyzeAI (j : Job) : j.status = .EXTRACTING_TEXT →
      Step j { j with status := .ANALYZING_AI }
  | saveAnalysis (j : Job) : j.status = .ANALYZING_AI →
      Step j { j with status := .SAVING_ANALYSIS }
  | generatePdf (j : Job) : j.status = .SAVING_ANALYSIS →
      Step j { j with status := .GENERATING_PDF }
  | uploadPdf (j : Job) : j.status = .GENERATING_PDF →
      Step j { j with status := .UPLOADING_PDF }
  | completeWithKey (j : Job) (k : String) : j.status = .UPLOADING_PDF →
      Step j { status := .COMPLETED, pdf_s3_key := some k }
  | failStage (j : Job) : nonTerminal j.status = true →
      Step j { j with status := .FAILED }
  | downloadFlip (j : Job) : j.pdf_s3_key ≠ none → j.status ≠ .FAILED →
      Step j { j with status := .FILE_UNAVAILABLE }

/-- A persisted Job state reachable from the freshly inserted row. -/
def Reachable (j : Job) : Prop := Relation.ReflTransGen Step initJob j

/-- The invariant that actually holds of every reachable row: the stored PDF key
is non-null exactly on the two post-completion statuses. -/
lemma key_iff_completed_or_unavailable (j : Job) (h : Reachable j) :
    j.pdf_s3_key ≠ none ↔ (j.status = .COMPLETED ∨ j.status = .FILE_UNAVAILABLE) := by
  induction h with
  | refl => simp [initJob]
  | tail _hsteps hstep ih =>
    rename_i b c
    cases hstep with
    | uploadDeck hj => simp_all
    | extractText hj => simp_all
    | analyzeAI hj => simp_all
    | saveAnalysis hj => simp_all
    | generatePdf hj => simp_all
    | uploadPdf hj => simp_all
    | completeWithKey k hj => simp
    | failStage hj =>
      cases hs : b.status <;> simp_all [nonTerminal]
    | downloadFlip hk hs => simp_all

/-- A completed job whose download later hit a failing S3 HEAD check. -/
def exUnavailableJob : Job :=
  ⟨.FILE_UNAVAILABLE, some "reports/Investment_Thesis_Startup_01012025.pdf"⟩

lemma exUnavailableJob_reachable : Reachable exUnavailableJob := by
  have s1 : Step ⟨.PENDING, none⟩ ⟨.UPLOADING_DECK, none⟩ := Step.uploadDeck _ rfl
  have s2 : Step ⟨.UPLOADING_DECK, none⟩ ⟨.EXTRACTING_TEXT, none⟩ := Step.extractText _ rfl
  have s3 : Step ⟨.EXTRACTING_TEXT, none⟩ ⟨.ANALYZING_AI, none⟩ := Step.analyzeAI _ rfl
  have s4 : Step ⟨.ANALYZING_AI, none⟩ ⟨.SAVING_ANALYSIS, none⟩ := Step.saveAnalysis _ rfl
  have s5 : Step ⟨.SAVING_ANALYSIS, none⟩ ⟨.GENERATING_PDF, none⟩ := Step.generatePdf _ rfl
  have s6 : Step ⟨.GENERATING_PDF, none⟩ ⟨.UPLOADING_PDF, none⟩ := Step.uploadPdf _ rfl
  have s7 : Step ⟨.UPLOADING_PDF, none⟩
      ⟨.COMPLETED, some "reports/Investment_Thesis_Startup_01012025.pdf"⟩ :=
    Step.completeWithKey _ _ rfl
  have s8 : Step ⟨.COMPLETED, some "reports/Investment_Thesis_Startup_01012025.pdf"⟩
      exUnavailableJob :=
    Step.downloadFlip _ (by simp) (by simp)
  exact .tail (.tail (.tail (.tail (.tail (.tail (.tail (.tail .refl s1) s2) s3) s4) s5)
    s6) s7) s8

/-- C2 counterexample: a reachable persisted state has a non-null `pdf_s3_key`
although its status is `FILE_UNAVAILABLE`, not `COMPLETED` — the download
route's `FILE_UNAVAILABLE` UPDATE does not null the stored key, so "report_key
non-null iff status == COMPLETED" fails on the code. -/
theorem reportKey_iff_completed_counterexample :
    Reachable exUnavailableJob ∧ exUnavailableJob.pdf_s3_key ≠ none ∧
      exUnavailableJob.status ≠ .COMPLETED :=
  ⟨exUnavailableJob_reachable, by simp [exUnavailableJob], by simp [exUnavailableJob]⟩

/-- C2 (amended): in every reachable persisted Job state, the stored
`pdf_s3_key` is non-null iff the status is `COMPLETED` or `FILE_UNAVAILABLE`;
moreover the only transition that changes the stored key is the one that sets
`COMPLETED` (`updatePdfKeyAndComplete`).  In particular `FAILED` and all
pipeline statuses carry a null key, while the lazy `FILE_UNAVAILABLE` flip
keeps the key of the completed job it starts from. -/
theorem reportKey_nonnull_iff_postCompletion (j : Job) (h : Reachable j) :
    (j.pdf_s3_key ≠ none ↔ (j.status = .COMPLETED ∨ j.status = .FILE_UNAVAILABLE)) ∧
    ∀ j', Step j j' → j'.pdf_s3_key ≠ j.pdf_s3_key → j'.status = .COMPLETED := by
  refine ⟨key_iff_completed_or_unavailable j h, ?_⟩
  intro j' hstep hne
  cases hstep <;> simp_all

/-- Witness for C2 (amended) at the freshly inserted row. -/
theorem reportKey_nonnull_iff_postCompletion_witness :
    initJob.pdf_s3_key ≠ none ↔
      (initJob.status = .COMPLETED ∨ initJob.status = .FILE_UNAVAILABLE) :=
  (reportKey_nonnull_iff_postCompletion initJob Relation.ReflTransGen.refl).1

/-- The fixed stage sequence of the Orchestrator, as the successor function on
persisted statuses. -/
def nextStage : Status → Option Status
  | .PENDING => some .UPLOADING_DECK
  | .UPLOADING_DECK => some .EXTRACTING_TEXT
  | .EXTRACTING_TEXT => some .ANALYZING_AI
  | .ANALYZING_AI => some .SAVING_ANALYSIS
  | .SAVING_ANALYSIS => some .GENERATING_PDF
  | .GENERATING_PDF => some .UPLOADING_PDF
  | .UPLOADING_PDF => some .COMPLETED
  | .COMPLETED => none
  | .FAILED => none
  | .FILE_UNAVAILABLE => none

/-- Position of a status along the pipeline; `FAILED` and `FILE_UNAVAILABLE`
sit at or after the end so that "never reverts" is rank-monotonicity. -/
def statusRank : Status → ℕ
  | .PENDING => 0
  | .UPLOADING_DECK => 1
  | .EXTRACTING_TEXT => 2
  | .ANALYZING_AI => 3
  | .SAVING_ANALYSIS => 4
  | .GENERATING_PDF => 5
  | .UPLOADING_PDF => 6
  | .COMPLETED => 7
  | .FAILED => 7
  | .FILE_UNAVAILABLE => 8

/-- C7: from any reachable state, every persisted transition either advances
the status to its successor in the fixed stage sequence, or jumps to `FAILED`
from a non-terminal state, or flips `COMPLETED` to `FILE_UNAVAILABLE`; the
stage rank never decreases, so a status never reverts. -/
theorem status_moves_forward (j j' : Job) (hr : Reachable j) (hs : Step j j') :
    (j'.status ≠ j.status →
      nextStage j.status = some j'.status ∨
      (j'.status = .FAILED ∧ nonTerminal j.status = true) ∨
      (j'.status = .FILE_UNAVAILABLE ∧ j.status = .COMPLETED)) ∧
    statusRank j.status ≤ statusRank j'.status := by
  have hinv := key_iff_completed_or_unavailable j hr
  cases hs with
  | uploadDeck hj => exact ⟨fun _ => Or.inl (by simp [hj, nextStage]), by simp [hj, statusRank]⟩
  | extractText hj => exact ⟨fun _ => Or.inl (by simp [hj, nextStage]), by simp [hj, statusRank]⟩
  | analyzeAI hj => exact ⟨fun _ => Or.inl (by simp [hj, nextStage]), by simp [hj, statusRank]⟩
  | saveAnalysis hj => exact ⟨fun _ => Or.inl (by simp [hj, nextStage]), by simp [hj, statusRank]⟩
  | generatePdf hj => exact ⟨fun _ => Or.inl (by simp [hj, nextStage]), by simp [hj, statusRank]⟩
  | uploadPdf hj => exact ⟨fun _ => Or.inl (by simp [hj, nextStage]), by simp [hj, statusRank]⟩
  | completeWithKey k hj => exact ⟨fun _ => Or.inl (by simp [hj, nextStage]), by simp [hj, statusRank]⟩
  | failStage hj =>
    refine ⟨fun _ => Or.inr (Or.inl ⟨rfl, hj⟩), ?_⟩
    cases h : j.status <;> simp_all [statusRank, nonTerminal]
  | downloadFlip hk hst =>
    have hcs : j.status = .COMPLETED ∨ j.status = .FILE_UNAVAILABLE := hinv.mp hk
    refine ⟨fun hne => ?_, ?_⟩
    · rcases hcs with hc | hc
      · exact Or.inr (Or.inr ⟨rfl, hc⟩)
      · exact absurd (by simp [hc]) hne
    · rcases hcs with hc | hc <;> simp [hc, statusRank]

/-- Witness for C7 at the first transition of a fresh job. -/
theorem status_moves_forward_witness :
    ((⟨.UPLOADING_DECK, none⟩ : Job).status ≠ initJob.status →
      nextStage initJob.status = some (⟨.UPLOADING_DECK, none⟩ : Job).status ∨
      ((⟨.UPLOADING_DECK, none⟩ : Job).status = .FAILED ∧
        nonTerminal initJob.status = true) ∨
      ((⟨.UPLOADING_DECK, none⟩ : Job).status = .FILE_UNAVAILABLE ∧
        initJob.status = .COMPLETED)) ∧
    statusRank initJob.status ≤ statusRank (⟨.UPLOADING_DECK, none⟩ : Job).status :=
  status_moves_forward initJob ⟨.UPLOADING_DECK, none⟩ Relation.ReflTransGen.refl
    (Step.uploadDeck initJob rfl)

/-! ## Slide-count validation

The `[5, 35]` range check on the count returned by the lightweight pre-check
endpoint (`POST /api/analysis/validate-slides`, which itself only reports the
count) is performed by the frontend uploader (`FileUpload.tsx`, `handleFile`,
lines 506–525) before the upload request that creates a Job.  The backend
upload pipeline (`server.js` lines 836–843) creates the Job first, rejects only
a zero-slide extraction, and merely logs a warning outside `[3, 30]`. -/

inductive SlideValidation
  | notNumber (message : String)
  | rejectedLow (message : String)
  | rejectedHigh (message : String)
  | accepted
deriving DecidableEq

/-- The frontend's range check after the validate-slides response
(`FileUpload.tsx` lines 506–525). -/
def frontendSlideCheck (slideCount : Option ℕ) : SlideValidation :=
  match slideCount with
  | none => .notNumber "Could not determine slide count. Please try again."
  | some n =>
    if n < 5 then
      .rejectedLow ("Slides too low: Your presentation has " ++ toString n
        ++ " slides. Minimum is 5.")
    else if n > 35 then
      .rejectedHigh ("Slides too high: Your presentation has " ++ toString n
        ++ " slides. Maximum is 35.")
    else .accepted

inductive UploadSlideOutcome
  | rejected (message : String)
  | proceedWithWarning
  | proceed
deriving DecidableEq

/-- What the backend upload pipeline does with the extracted slide count
(`server.js` lines 836–843): throws only on zero slides, warns outside
`[3, 30]`, and otherwise continues — the Job row already exists at this
point (`saveAnalysisToDB` ran at the first stage). -/
def uploadSlideGate (slideCount : ℕ) : UploadSlideOutcome :=
  if slideCount = 0 then .rejected "Text extraction yielded no slides or invalid data."
  else if slideCount < 3 ∨ slideCount > 30 then .proceedWithWarning
  else .proceed

/-- C3 counterexample: a submission whose pre-checked count is 4 violates the
claimed `[5, 35]` bound, yet the backend pipeline does not reject it — it
proceeds (without even the console warning, whose range is `[3, 30]`) on a Job
that was already created. -/
theorem slideRange_counterexample :
    uploadSlideGate 4 = .proceed ∧ ¬ (5 ≤ 4 ∧ 4 ≤ 35) := by
  constructor
  · simp [uploadSlideGate]
  · decide

/-- C3 (amended): the `[5, 35]` inclusive range check is enforced client-side,
on the count returned by the lightweight pre-check endpoint, before the upload
request that creates a Job: a count below 5 or above 35 is rejected with a
message naming the actual count, and exactly the counts in `[5, 35]` are
accepted (so 4 and 36 are rejected, 5 and 35 accepted). -/
theorem frontend_slideRange_check (n : ℕ) :
    (frontendSlideCheck (some n) = .accepted ↔ (5 ≤ n ∧ n ≤ 35)) ∧
    (n < 5 → frontendSlideCheck (some n) =
      .rejectedLow ("Slides too low: Your presentation has " ++ toString n
        ++ " slides. Minimum is 5.")) ∧
    (35 < n → frontendSlideCheck (some n) =
      .rejectedHigh ("Slides too high: Your presentation has " ++ toString n
        ++ " slides. Maximum is 35.")) := by
  have hlow : ∀ h1 : n < 5, frontendSlideCheck (some n) =
      .rejectedLow ("Slides too low: Your presentation has " ++ toString n
        ++ " slides. Minimum is 5.") :=
    fun h1 => by simp [frontendSlideCheck, h1]
  have hhigh : ∀ _h2 : 35 < n, frontendSlideCheck (some n) =
      .rejectedHigh ("Slides too high: Your presentation has " ++ toString n
        ++ " slides. Maximum is 35.") :=
    fun h2 => by
      have h1 : ¬ n < 5 := by omega
      simp [frontendSlideCheck, h1, h2]
  refine ⟨⟨fun h => ?_, fun hr => ?_⟩, hlow, hhigh⟩
  · by_contra hc
    rcases Nat.lt_or_ge n 5 with h1 | h1
    · rw [hlow h1] at h
      exact SlideValidation.noConfusion h
    · have h2 : 35 < n := by omega
      rw [hhigh h2] at h
      exact SlideValidation.noConfusion h
  · have h1 : ¬ n < 5 := by omega
    have h2 : ¬ n > 35 := by omega
    simp [frontendSlideCheck, h1, h2]

/-- Witness for C3 (amended) at the four boundary counts 4, 5, 35, 36. -/
theorem frontend_slideRange_check_witness :
    frontendSlideCheck (some 4) =
      .rejectedLow ("Slides too low: Your presentation has " ++ toString 4
        ++ " slides. Minimum is 5.") ∧
    frontendSlideCheck (some 5) = .accepted ∧
    frontendSlideCheck (some 35) = .accepted ∧
    frontendSlideCheck (some 36) =
      .rejectedHigh ("Slides too high: Your presentation has " ++ toString 36
        ++ " slides. Maximum is 35.") :=
  ⟨(frontend_slideRange_check 4).2.1 (by norm_num),
   (frontend_slideRange_check 5).1.mpr (by norm_num),
   (frontend_slideRange_check 35).1.mpr (by norm_num),
   (frontend_slideRange_check 36).2.2 (by norm_num)⟩

/-! ## The External Analysis Client's retry loop

`callGeminiWithRetry` (`analyzeWithGemini.js` lines 62–94, identically
`server.js` lines 283–315).  The outcome of the i-th `generateContent` call
(success with the response text, or any of the failure modes that throw:
network error, missing response object, empty text) is modelled by an oracle
`ℕ → Except String String`.  The loop body is fuelled by `maxRetries + 1`,
which is exactly the number of iterations the `while (retries <= maxRetries)`
condition admits; the fuel-0 case is the unreachable throw after the loop. -/

structure RetryTrace where
  outcome : Except String String
  attempts : ℕ
  delays : List ℕ

/-- The retry loop.  `retries` is the number of failed attempts so far; a delay
of `1500 * 2 ^ (retries' - 1)` ms (with `retries'` the incremented counter) is
slept before each re-attempt. -/
def retryGo (oracle : ℕ → Except String String) (maxRetries : ℕ) :
    ℕ → ℕ → RetryTrace
  | retries, 0 => ⟨.error "Gemini analysis failed after all retries.", retries, []⟩
  | retries, fuel + 1 =>
    match oracle retries with
    | .ok text => ⟨.ok text, retries + 1, []⟩
    | .error e =>
      if retries + 1 > maxRetries then
        ⟨.error ("Failed to get valid Gemini analysis after " ++ toString (maxRetries + 1)
          ++ " attempts: " ++ e), retries + 1, []⟩
      else
        let rest := retryGo oracle maxRetries (retries + 1) fuel
        ⟨rest.outcome, rest.attempts, 1500 * 2 ^ retries :: rest.delays⟩

def callGeminiWithRetry (oracle : ℕ → Except String String) (maxRetries : ℕ) :
    RetryTrace :=
  retryGo oracle maxRetries 0 (maxRetries + 1)

/-- C4: with the default retry budget (`maxRetries = 2`) the client makes at
most 3 attempts, sleeping 1500 ms before the second attempt and 3000 ms before
the third; two transient failures followed by a success return that success
with exactly 3 attempts and no error; three failures end with an error message
naming the attempt count 3. -/
theorem retry_policy (oracle : ℕ → Except String String) (e0 e1 e2 t : String) :
    (callGeminiWithRetry oracle 2).attempts ≤ 3 ∧
    (callGeminiWithRetry oracle 2).delays =
      [1500, 3000].take ((callGeminiWithRetry oracle 2).attempts - 1) ∧
    (oracle 0 = .error e0 → oracle 1 = .error e1 → oracle 2 = .ok t →
      callGeminiWithRetry oracle 2 = ⟨.ok t, 3, [1500, 3000]⟩) ∧
    (oracle 0 = .error e0 → oracle 1 = .error e1 → oracle 2 = .error e2 →
      callGeminiWithRetry oracle 2 =
        ⟨.error ("Failed to get valid Gemini analysis after 3 attempts: " ++ e2), 3,
          [1500, 3000]⟩) := by
  have hmsg : ∀ s : String,
      "Failed to get valid Gemini analysis after " ++ toString (3 : ℕ)
        ++ " attempts: " ++ s =
      "Failed to get valid Gemini analysis after 3 attempts: " ++ s :=
    fun _ => rfl
  rcases h0 : oracle 0 with f0 | t0 <;> rcases h1 : oracle 1 with f1 | t1 <;>
    rcases h2 : oracle 2 with f2 | t2 <;>
    simp_all [callGeminiWithRetry, retryGo]

/-- A concrete oracle: two transient failures, then a success. -/
def oracleEx : ℕ → Except String String :=
  fun i => if i < 2 then .error "network error" else .ok "analysis json"

/-- Witness for C4: the concrete two-failures-then-success run. -/
theorem retry_policy_witness :
    callGeminiWithRetry oracleEx 2 = ⟨.ok "analysis json", 3, [1500, 3000]⟩ :=
  (retry_policy oracleEx "network error" "network error" "" "analysis json").2.2.1
    rfl rfl rfl

/-! ## The parsed LLM response and its validation

`analyzeWithGemini` (`analyzeWithGemini.js` lines 198–252, identically
`server.js` lines 219–275) after `JSON.parse` succeeded: the nine category
entries, the six required top-level fields (`none` models `undefined`/`null`),
and a possibly LLM-supplied `overall_score` key. -/

structure AnalysisData where
  categories : Categories
  overall_strengths : Option (List String)
  overall_weaknesses : Option (List String)
  recommendation : Option String
  confidence_score : Option ℚ
  recommendations_for_investor : Option String
  processing_date : Option String
  overall_score : Option ℚ

/-- String interpolation of a category's `score` value in the invalid-score
diagnostic (`undefined` when the field is absent or not a number). -/
def showScore (s : Option ℚ) : String :=
  match s with
  | some q => toString q
  | none => "undefined"

/-- The `missingCategories` accumulator of the validation loop. -/
def missingCategories (a : AnalysisData) : List String :=
  allCategories.filterMap (fun c =>
    if a.categories c = none then some (catName c) else none)

/-- One iteration of the invalid-score check: a present category whose `score`
is not a number or lies outside `[0, 10]` yields its diagnostic entry. -/
def invalidScoreEntry (cats : Categories) (c : Category) : Option String :=
  match cats c with
  | some d =>
    match d.score with
    | none => some (catName c ++ " (Score: " ++ showScore none ++ ")")
    | some q =>
      if q < 0 ∨ q > 10 then
        some (catName c ++ " (Score: " ++ showScore (some q) ++ ")")
      else none
  | none => none

/-- The `categoriesWithInvalidScores` accumulator. -/
def invalidScoreCategories (a : AnalysisData) : List String :=
  allCategories.filterMap (invalidScoreEntry a.categories)

/-- The `missingTopLevelFields` accumulator, in the source's field order. -/
def missingTopLevelFields (a : AnalysisData) : List String :=
  (if a.overall_strengths = none then ["overall_strengths"] else []) ++
  (if a.overall_weaknesses = none then ["overall_weaknesses"] else []) ++
  (if a.recommendation = none then ["recommendation"] else []) ++
  (if a.confidence_score = none then ["confidence_score"] else []) ++
  (if a.recommendations_for_investor = none then ["recommendations_for_investor"] else []) ++
  (if a.processing_date = none then ["processing_date"] else [])

/-- The `validationErrors` array. -/
def validationErrors (a : AnalysisData) : List String :=
  (if missingCategories a ≠ [] then
    ["Missing categories: " ++ String.intercalate ", " (missingCategories a)] else []) ++
  (if invalidScoreCategories a ≠ [] then
    ["Invalid scores: " ++ String.intercalate ", " (invalidScoreCategories a)] else []) ++
  (if missingTopLevelFields a ≠ [] then
    ["Missing top-level fields: " ++ String.intercalate "; " (missingTopLevelFields a)] else [])

/-- The validation tail of `analyzeWithGemini` on a parsed response: invalid
scores or missing top-level fields throw; missing categories only accumulate a
warning; on success `overall_score` is overwritten with the server-side
`calculateOverallScore` result.  Returns the mutated object together with the
warned-about missing category names. -/
def analyzeValidate (a : AnalysisData) : Except String (AnalysisData × List String) :=
  if invalidScoreCategories a ≠ [] ∨ missingTopLevelFields a ≠ [] then
    .error ("Analysis validation failed: " ++ String.intercalate "; " (validationErrors a))
  else
    .ok ({ a with overall_score := some ((calculateOverallScore a.categories : ℤ) : ℚ) },
      missingCategories a)

/-- A category entry that the validation treats as a fatal invalid score. -/
def catScoreFatal (o : Option CatData) : Prop :=
  ∃ d, o = some d ∧ (d.score = none ∨ ∃ q, d.score = some q ∧ (q < 0 ∨ 10 < q))

/-! ## The Report Renderer

`prepareReportData` (`server.js` lines 368–392) and the text content of
`generateInvestmentThesisPDF` (lines 542–678).  The ambient clock is made an
explicit input: `dateStr` is the `format(new Date(), 'ddMMyyyy')` rendering of
the current date taken in `prepareReportData`, and `nowMs` is the `Date.now()`
fallback used for a missing `processing_date`.  The pdfkit layout calls are
abstracted to the ordered stream of text snippets written into the document
(fonts, indents and the page-number stamps — which are a function of the
paginated content — carry no further input dependence). -/

/-- Model of `path.basename(name, path.extname(name))`: strip the final dot-suffix,
keeping a lone leading-dot name intact. -/
def dropExtension (l : List Char) : List Char :=
  match (l.reverse.dropWhile (· ≠ '.')) with
  | [] => l
  | [_] => l
  | _ :: rest => rest.reverse

/-- The character class kept by `replace(/[^a-zA-Z0-9\-_ ]/g, '')`. -/
def keepCh (c : Char) : Bool :=
  c.isAlpha || c.isDigit || c = '-' || c = '_' || c = ' '

/-- The sanitized startup name of `prepareReportData`: basename without
extension, restricted character set, spaces to underscores, first 50
characters, with the `Analysis_<id>` fallback for an empty result or a missing
filename. -/
def prepareStartupName (originalFileName : Option String) (analysisId : ℕ) : String :=
  match originalFileName with
  | some f =>
    let nm := String.mk ((((dropExtension f.toList).filter keepCh).map
      (fun c => if c = ' ' then '_' else c)).take 50)
    if nm = "" then "Analysis_" ++ toString analysisId else nm
  | none => "Analysis_" ++ toString analysisId

/-- The generated report filename:
`Investment_Thesis_<startupName>_<ddMMyyyy>.pdf`, where the date part renders
the **current** date at preparation time. -/
def prepareReportFilename (originalFileName : Option String) (analysisId : ℕ)
    (dateStr : String) : String :=
  "Investment_Thesis_" ++ prepareStartupName originalFileName analysisId
    ++ "_" ++ dateStr ++ ".pdf"

structure ReportDetails where
  reportData : AnalysisData
  filename : String

/-- The function `prepareReportData`: pairs the analysis object (unchanged) with the
date-stamped filename. -/
def prepareReportData (analysisResult : AnalysisData) (originalFileName : Option String)
    (analysisId : ℕ) (dateStr : String) : ReportDetails :=
  ⟨analysisResult, prepareReportFilename originalFileName analysisId dateStr⟩

/-- JavaScript's `String.prototype.split` at `'_'` on the character list (empty segments kept). -/
def splitU : List Char → List (List Char)
  | [] => [[]]
  | c :: cs =>
    match splitU cs with
    | [] => [[]]
    | h :: t => if c = '_' then [] :: h :: t else (c :: h) :: t

def splitUnderscore (s : String) : List String :=
  (splitU s.toList).map String.mk

/-- Model of `format(new Date(x), 'MMMM dd, yyyy HH:mm:ss UTC')`, abstracted to a
deterministic injective rendering of the recorded timestamp value (the claims
depend only on which timestamp is rendered, not on its textual form). -/
def formatTimestampLong (t : String) : String := "Date(" ++ t ++ ")"

/-- The weight percentage shown in a category heading
(`(weight * 100).toFixed(0)`; every table value is integral). -/
def weightPctString (c : Category) : String := toString (weight c * 100 : ℚ)

/-- Score line of a category section: `${catData.score ?? 'N/A'} / 10`. -/
def scoreLine (s : Option ℚ) : String :=
  (match s with
   | some q => toString q
   | none => "N/A") ++ " / 10"

/-- The bullet list rendered for `overall_strengths` / `overall_weaknesses`:
`Array.isArray(x) && x.length > 0` walks the entries, else a single default
bullet; each bullet is `•  ${txt || 'N/A'}`. -/
def bulletBlock (entries : Option (List String)) : List String :=
  match entries with
  | some (e :: es) => (e :: es).map (fun s => "•  " ++ jsOrStr (some s) "N/A")
  | _ => ["•  None explicitly identified in the analysis."]

/-- The ordered text content of `generateInvestmentThesisPDF`. -/
def renderContent (a : AnalysisData) (analysisId : ℕ) (originalFileName : Option String)
    (dateStr : String) (nowMs : ℕ) : List String :=
  let details := prepareReportData a originalFileName analysisId dateStr
  let startupName := jsOrStr ((splitUnderscore details.filename).get? 2) "Startup"
  let analysisDateStr := formatTimestampLong (jsOrStr a.processing_date (toString nowMs))
  let overallScore := calculateOverallScore a.categories
  ["Investment Thesis Summary",
   "Startup Reference: " ++ startupName,
   "Analysis Date: " ++ analysisDateStr,
   "Overall Recommendation:",
   jsOrStr a.recommendation "Not Available",
   "Calculated Overall Score:",
   toString overallScore ++ " / 100",
   "AI Confidence Score:",
   (match a.confidence_score with
    | some q => toString q
    | none => "N/A") ++ " / 100",
   "Note: Confidence reflects AI certainty based on text completeness/coherence, not investment success.",
   "Category Analysis"]
  ++ allCategories.flatMap (fun c =>
      (catName c ++ " (" ++ weightPctString c ++ "%)") ::
      (match a.categories c with
       | some catData =>
         ["Score:", scoreLine catData.score, "Feedback:",
          jsOrStr catData.qualitative_feedback "No specific feedback provided."]
       | none => ["Analysis data missing for this category."]))
  ++ ["Overall Strengths & Weaknesses", "Identified Strengths:"]
  ++ bulletBlock a.overall_strengths
  ++ ["Identified Weaknesses / Gaps:"]
  ++ bulletBlock a.overall_weaknesses
  ++ ["Recommendations for Investor Due Diligence",
      jsOrStr a.recommendations_for_investor
        "No specific recommendations provided beyond the category feedback."]

/-! ## C5: fatal vs tolerated validation outcomes -/

lemma mem_allCategories (c : Category) : c ∈ allCategories := by
  cases c <;> simp [allCategories]

lemma invalidScoreEntry_ne_none (cats : Categories) (c : Category) :
    invalidScoreEntry cats c ≠ none ↔ catScoreFatal (cats c) := by
  unfold invalidScoreEntry catScoreFatal
  cases h : cats c with
  | none => simp
  | some d =>
    cases hq : d.score with
    | none =>
      constructor
      · intro _
        exact ⟨d, rfl, Or.inl hq⟩
      · intro _
        simp [hq]
    | some q =>
      by_cases hr : q < 0 ∨ q > 10
      · constructor
        · intro _
          refine ⟨d, rfl, Or.inr ⟨q, hq, ?_⟩⟩
          rcases hr with hr | hr
          · exact Or.inl hr
          · exact Or.inr hr
        · intro _
          simp [hq, hr]
      · constructor
        · intro hne
          exact absurd (by simp [hq, hr]) hne
        · rintro ⟨d', hd', hbad⟩
          injection hd' with hdd
          subst hdd
          rcases hbad with hs | ⟨q', hq', hr'⟩
          · rw [hq] at hs; cases hs
          · rw [hq] at hq'
            injection hq' with hqq
            subst hqq
            exact absurd hr' hr

lemma invalidScoreCategories_ne_nil (a : AnalysisData) :
    invalidScoreCategories a ≠ [] ↔ ∃ c, catScoreFatal (a.categories c) := by
  rw [invalidScoreCategories, Ne, List.filterMap_eq_nil_iff]
  push_neg
  constructor
  · rintro ⟨c, _, h⟩
    exact ⟨c, (invalidScoreEntry_ne_none a.categories c).mp h⟩
  · rintro ⟨c, h⟩
    exact ⟨c, mem_allCategories c, (invalidScoreEntry_ne_none a.categories c).mpr h⟩

lemma missingCategories_ne_nil (a : AnalysisData) :
    missingCategories a ≠ [] ↔ ∃ c, a.categories c = none := by
  rw [missingCategories, Ne, List.filterMap_eq_nil_iff]
  push_neg
  constructor
  · rintro ⟨c, _, h⟩
    refine ⟨c, ?_⟩
    by_contra hc
    simp [hc] at h
  · rintro ⟨c, h⟩
    exact ⟨c, mem_allCategories c, by simp [h]⟩

lemma missingTopLevelFields_ne_nil (a : AnalysisData) :
    missingTopLevelFields a ≠ [] ↔
      (a.overall_strengths = none ∨ a.overall_weaknesses = none ∨
       a.recommendation = none ∨ a.confidence_score = none ∨
       a.recommendations_for_investor = none ∨ a.processing_date = none) := by
  unfold missingTopLevelFields
  by_cases h1 : a.overall_strengths = none <;>
    by_cases h2 : a.overall_weaknesses = none <;>
    by_cases h3 : a.recommendation = none <;>
    by_cases h4 : a.confidence_score = none <;>
    by_cases h5 : a.recommendations_for_investor = none <;>
    by_cases h6 : a.processing_date = none <;>
    simp [h1, h2, h3, h4, h5, h6]

/-- C5: on a parsed response, an invalid category score (non-numeric or outside
`[0,10]`) or any absent/null required top-level field makes the validation
throw; when validation succeeds, the missing-category warning fires exactly
when some category is absent, and an absent category scores as 0 (replacing
every absent category with a present score-0 entry leaves the computed overall
score unchanged). -/
theorem validation_fatal_vs_tolerated (a : AnalysisData) :
    ((∃ msg, analyzeValidate a = .error msg) ↔
      ((∃ c, catScoreFatal (a.categories c)) ∨
        a.overall_strengths = none ∨ a.overall_weaknesses = none ∨
        a.recommendation = none ∨ a.confidence_score = none ∨
        a.recommendations_for_investor = none ∨ a.processing_date = none)) ∧
    (∀ out ws, analyzeValidate a = .ok (out, ws) →
      ((∃ c, a.categories c = none) ↔ ws ≠ [])) ∧
    calculateOverallScore a.categories =
      calculateOverallScore (fun c => (a.categories c).getD ⟨some 0, none⟩) := by
  refine ⟨?_, ?_, ?_⟩
  · constructor
    · rintro ⟨msg, hmsg⟩
      unfold analyzeValidate at hmsg
      by_cases h : invalidScoreCategories a ≠ [] ∨ missingTopLevelFields a ≠ []
      · rcases h with h | h
        · exact Or.inl ((invalidScoreCategories_ne_nil a).mp h)
        · rcases (missingTopLevelFields_ne_nil a).mp h with h' | h' | h' | h' | h' | h' <;>
            simp [h']
      · rw [if_neg h] at hmsg
        cases hmsg
    · intro h
      have hcond : invalidScoreCategories a ≠ [] ∨ missingTopLevelFields a ≠ [] := by
        rcases h with h | h
        · exact Or.inl ((invalidScoreCategories_ne_nil a).mpr h)
        · exact Or.inr ((missingTopLevelFields_ne_nil a).mpr h)
      exact ⟨_, by unfold analyzeValidate; rw [if_pos hcond]⟩
  · intro out ws h
    unfold analyzeValidate at h
    by_cases hcond : invalidScoreCategories a ≠ [] ∨ missingTopLevelFields a ≠ []
    · rw [if_pos hcond] at h
      cases h
    · rw [if_neg hcond] at h
      injection h with h'
      injection h' with _hout hws
      subst hws
      exact (missingCategories_ne_nil a).symm
  · have heq : ∀ c : Category,
        effScore (a.categories c) = effScore ((a.categories c).getD ⟨some 0, none⟩) := by
      intro c
      cases h : a.categories c with
      | none => simp [effScore]
      | some d => simp
    unfold calculateOverallScore
    simp only [heq]

/-- A parsed response that is valid except for the missing required top-level
field `recommendation`. -/
def respMissingRecommendation : AnalysisData :=
  { categories := fun _ => some ⟨some 8, some "solid"⟩
    overall_strengths := some ["clear problem statement"]
    overall_weaknesses := some ["no traction data"]
    recommendation := none
    confidence_score := some 80
    recommendations_for_investor := some "probe the financial assumptions"
    processing_date := some "2025-01-01 00:00:00 UTC"
    overall_score := none }

/-- Witness for C5: a response missing `recommendation` is a fatal validation
error. -/
theorem validation_fatal_vs_tolerated_witness :
    ∃ msg, analyzeValidate respMissingRecommendation = .error msg :=
  (validation_fatal_vs_tolerated respMissingRecommendation).1.mpr
    (Or.inr (Or.inr (Or.inr (Or.inl rfl))))

/-- C6: the validated result's `overall_score` is always the server-side
`calculateOverallScore` of the nine category scores; an externally supplied
`overall_score` value influences neither the validation outcome, nor the
stored result, nor the rendered report content. -/
theorem overallScore_never_trusted (a : AnalysisData) (v : Option ℚ) :
    analyzeValidate { a with overall_score := v } = analyzeValidate a ∧
    (∀ out ws, analyzeValidate a = .ok (out, ws) →
      out.overall_score = some ((calculateOverallScore a.categories : ℤ) : ℚ)) ∧
    (∀ analysisId originalFileName dateStr nowMs,
      renderContent { a with overall_score := v } analysisId originalFileName dateStr nowMs
        = renderContent a analysisId originalFileName dateStr nowMs) := by
  refine ⟨?_, ?_, ?_⟩
  · cases a
    rfl
  · intro out ws h
    unfold analyzeValidate at h
    by_cases hcond : invalidScoreCategories a ≠ [] ∨ missingTopLevelFields a ≠ []
    · rw [if_pos hcond] at h
      cases h
    · rw [if_neg hcond] at h
      injection h with h'
      injection h' with hout _hws
      subst hout
      rfl
  · intro analysisId originalFileName dateStr nowMs
    cases a
    rfl

/-- Witness for C6: overwriting the supplied `overall_score` of a concrete
response changes nothing. -/
theorem overallScore_never_trusted_witness :
    analyzeValidate { respMissingRecommendation with overall_score := some 99 } =
      analyzeValidate respMissingRecommendation :=
  (overallScore_never_trusted respMissingRecommendation (some 99)).1

/-! ## C9: determinism of report rendering -/

/-- The segment of a character list before its first `'_'` (the first entry
`split('_')` produces). -/
def firstSegU : List Char → List Char
  | [] => []
  | c :: cs => if c = '_' then [] else c :: firstSegU cs

lemma splitU_ne_nil (l : List Char) : splitU l ≠ [] := by
  induction l with
  | nil => simp [splitU]
  | cons c cs ih =>
    simp only [splitU]
    cases h : splitU cs with
    | nil => exact absurd h ih
    | cons hd tl =>
      by_cases hc : c = '_' <;> simp [hc]

lemma splitU_get0 (l : List Char) : (splitU l)[0]? = some (firstSegU l) := by
  induction l with
  | nil => simp [splitU, firstSegU]
  | cons c cs ih =>
    simp only [splitU]
    cases h : splitU cs with
    | nil => exact absurd h (splitU_ne_nil cs)
    | cons hd tl =>
      rw [h] at ih
      by_cases hc : c = '_'
      · simp [hc, firstSegU]
      · have hhd : hd = firstSegU cs := by simpa using ih
        simp [hc, firstSegU, hhd]

lemma firstSegU_append_sep (xs ys : List Char) :
    firstSegU (xs ++ '_' :: ys) = firstSegU xs := by
  induction xs with
  | nil => simp [firstSegU]
  | cons c cs ih =>
    by_cases hc : c = '_' <;> simp [firstSegU, hc, ih]

lemma splitU_append_no_sep (xs ys : List Char) (h : '_' ∉ xs) :
    splitU (xs ++ '_' :: ys) = xs :: splitU ys := by
  induction xs with
  | nil =>
    simp only [List.nil_append, splitU]
    cases hy : splitU ys with
    | nil => exact absurd hy (splitU_ne_nil ys)
    | cons hd tl => simp
  | cons c cs ih =>
    have hc : c ≠ '_' := fun hcc => h (by simp [hcc])
    have hcs : '_' ∉ cs := fun hmem => h (List.mem_cons_of_mem _ hmem)
    simp only [List.cons_append, splitU]
    rw [List.append_eq, ih hcs]
    simp [hc]

lemma splitU_filename_get2 (snl dsl : List Char) :
    (splitU ("Investment_Thesis_".toList ++ snl ++ '_' :: (dsl ++ ".pdf".toList)))[2]?
      = some (firstSegU snl) := by
  have hshape : "Investment_Thesis_".toList ++ snl ++ '_' :: (dsl ++ ".pdf".toList)
      = "Investment".toList ++
          '_' :: ("Thesis".toList ++ '_' :: (snl ++ '_' :: (dsl ++ ".pdf".toList))) := by
    have hpre : "Investment_Thesis_".toList
        = "Investment".toList ++ '_' :: ("Thesis".toList ++ ['_']) := by decide
    rw [hpre]
    simp [List.append_assoc]
  rw [hshape, splitU_append_no_sep _ _ (by decide), splitU_append_no_sep _ _ (by decide)]
  simp only [List.getElem?_cons_succ]
  rw [splitU_get0, firstSegU_append_sep]

lemma filename_get2 (fn : Option String) (id : ℕ) (ds : String) :
    (splitUnderscore (prepareReportFilename fn id ds))[2]?
      = some (String.mk (firstSegU (prepareStartupName fn id).toList)) := by
  unfold splitUnderscore prepareReportFilename
  rw [List.getElem?_map]
  have hdata : ("Investment_Thesis_" ++ prepareStartupName fn id ++ "_" ++ ds
        ++ ".pdf").toList
      = "Investment_Thesis_".toList ++ (prepareStartupName fn id).toList
          ++ '_' :: (ds.toList ++ ".pdf".toList) := by
    show ("Investment_Thesis_" ++ prepareStartupName fn id ++ "_" ++ ds ++ ".pdf").data = _
    simp only [String.data_append]
    simp [String.toList]
  rw [hdata, splitU_filename_get2]
  rfl

/-- C9 counterexample: byte-identical analysis input rendered on two different
dates yields two different report filenames — `prepareReportData` stamps
`format(new Date(), 'ddMMyyyy')`, the current date, into the filename. -/
theorem render_filename_counterexample :
    (prepareReportData respMissingRecommendation (some "deck.pptx") 1 "01012025").filename
      ≠ (prepareReportData respMissingRecommendation (some "deck.pptx") 1 "02012025").filename
    := by
  simp only [prepareReportData, prepareReportFilename]
  decide

/-- C9 (amended): the rendered document content is a pure function of the
analysis object (no mutation is possible and no current-time dependence
remains once the analysis carries its recorded `processing_date`), but the
suggested filename embeds the render-date `ddMMyyyy` stamp, so only renderings
on the same date produce the same filename. -/
theorem render_content_deterministic (a : AnalysisData) (analysisId : ℕ)
    (originalFileName : Option String) (dateStr₁ dateStr₂ : String) (nowMs₁ nowMs₂ : ℕ)
    (t : String) (hpd : a.processing_date = some t) (ht : t ≠ "") :
    renderContent a analysisId originalFileName dateStr₁ nowMs₁
      = renderContent a analysisId originalFileName dateStr₂ nowMs₂ := by
  unfold renderContent
  simp [prepareReportData, filename_get2, hpd, jsOrStr, ht]

/-- Witness for C9 (amended): a concrete analysis rendered under two different
clock readings produces the same document content. -/
theorem render_content_deterministic_witness :
    renderContent respMissingRecommendation 1 (some "deck.pptx") "01012025" 0
      = renderContent respMissingRecommendation 1 (some "deck.pptx") "02012025" 999 :=
  render_content_deterministic respMissingRecommendation 1 (some "deck.pptx")
    "01012025" "02012025" 0 999 "2025-01-01 00:00:00 UTC" rfl (by decide)

/-! ## C8: the completion-email dispatcher

`sendCompletionEmail` (`server.js` lines 710–784) and `updateEmailStatus`
(lines 515–539).  The external effects are inputs: the Gmail credentials from
the environment (`none` models unset or empty, i.e. falsy), the signed-URL
generation and the SMTP send as `Except` outcomes.  The function is total —
every failure path returns `false` after recording the email sub-state — and
only the `email_status` / `email_failure_reason` columns are ever written. -/

inductive EmailState
  | SENDING
  | SENT
  | FAILED
deriving DecidableEq

/-- The Job row as `sendCompletionEmail` can affect it. -/
structure JobEmailRow where
  processing_status : Status
  email_status : Option EmailState
  email_failure_reason : Option String
deriving DecidableEq

/-- The function `updateEmailStatus`: writes `email_status`, stores the truncated reason
only when the new status is `FAILED` and the reason is truthy, and nulls it
otherwise; `processing_status` is untouched. -/
def updateEmailStatus (row : JobEmailRow) (st : EmailState)
    (failureReason : Option String) : JobEmailRow :=
  { row with
    email_status := some st
    email_failure_reason :=
      if st = .FAILED then
        match failureReason with
        | some r => if r = "" then none else some (String.mk (r.toList.take 255))
        | none => none
      else none }

/-- The external collaborators of one `sendCompletionEmail` call. -/
structure MailEnv where
  gmailUser : Option String
  gmailAppPassword : Option String
  signedUrlResult : Except String String
  sendMailResult : Except String String

/-- The function `sendCompletionEmail`: checks credentials, recipient and PDF key, generates
the signed URL, marks `SENDING`, attempts the SMTP send, and records
`SENT`/`FAILED`; every path returns a boolean. -/
def sendCompletionEmail (env : MailEnv) (recipientEmail : Option String)
    (pdfS3Key : Option String) (row : JobEmailRow) : Bool × JobEmailRow :=
  if env.gmailUser = none ∨ env.gmailAppPassword = none then
    (false, updateEmailStatus row .FAILED (some "Gmail API configuration missing in server"))
  else if recipientEmail = none then
    (false, updateEmailStatus row .FAILED (some "Recipient email address missing"))
  else if pdfS3Key = none then
    (false, updateEmailStatus row .FAILED (some "PDF S3 Key missing"))
  else
    match env.signedUrlResult with
    | .error e =>
      (false, updateEmailStatus row .FAILED
        (some ("Failed to generate report download link: " ++ e)))
    | .ok _url =>
      let row₁ := updateEmailStatus row .SENDING none
      match env.sendMailResult with
      | .ok _info => (true, updateEmailStatus row₁ .SENT none)
      | .error e =>
        let errorMessage := jsOrStr (some e) "Unknown Gmail SMTP error"
        (false, updateEmailStatus row₁ .FAILED (some ("Gmail SMTP Error: " ++ errorMessage)))

lemma reason_nonempty_stored (row : JobEmailRow) (r : String) (h : r ≠ "") :
    (updateEmailStatus row .FAILED (some r)).email_failure_reason ≠ none := by
  simp [updateEmailStatus, h]

/-- C8: the completion-email dispatch is total (it returns a boolean instead of
throwing); it never changes the Job's `processing_status`; it returns `true`
exactly when the credentials, recipient, report key, signed URL and SMTP send
all succeed, recording `SENT`; and on every failure path it returns `false`
with `email_status = FAILED` and a non-null failure reason. -/
theorem email_dispatch_never_fatal (env : MailEnv) (recipientEmail : Option String)
    (pdfS3Key : Option String) (row : JobEmailRow) :
    (sendCompletionEmail env recipientEmail pdfS3Key row).2.processing_status
      = row.processing_status ∧
    ((sendCompletionEmail env recipientEmail pdfS3Key row).1 = true ↔
      (env.gmailUser ≠ none ∧ env.gmailAppPassword ≠ none ∧ recipientEmail ≠ none ∧
        pdfS3Key ≠ none ∧ (∃ u, env.signedUrlResult = .ok u) ∧
        (∃ i, env.sendMailResult = .ok i))) ∧
    ((sendCompletionEmail env recipientEmail pdfS3Key row).1 = true →
      (sendCompletionEmail env recipientEmail pdfS3Key row).2.email_status = some .SENT) ∧
    ((sendCompletionEmail env recipientEmail pdfS3Key row).1 = false →
      (sendCompletionEmail env recipientEmail pdfS3Key row).2.email_status = some .FAILED ∧
      (sendCompletionEmail env recipientEmail pdfS3Key row).2.email_failure_reason ≠ none)
    := by
  unfold sendCompletionEmail
  by_cases hcred : env.gmailUser = none ∨ env.gmailAppPassword = none
  · rw [if_pos hcred]
    refine ⟨rfl, ?_, ?_, ?_⟩
    · simp [updateEmailStatus]
      tauto
    · simp
    · intro _
      exact ⟨by simp [updateEmailStatus], reason_nonempty_stored row _ (by decide)⟩
  · rw [if_neg hcred]
    push_neg at hcred
    by_cases hrec : recipientEmail = none
    · rw [if_pos hrec]
      refine ⟨rfl, ?_, ?_, ?_⟩
      · simp [hrec]
      · simp
      · intro _
        exact ⟨by simp [updateEmailStatus], reason_nonempty_stored row _ (by decide)⟩
    · rw [if_neg hrec]
      by_cases hkey : pdfS3Key = none
      · rw [if_pos hkey]
        refine ⟨rfl, ?_, ?_, ?_⟩
        · simp [hkey]
        · simp
        · intro _
          exact ⟨by simp [updateEmailStatus], reason_nonempty_stored row _ (by decide)⟩
      · rw [if_neg hkey]
        cases hurl : env.signedUrlResult with
        | error e =>
          refine ⟨rfl, ?_, ?_, ?_⟩
          · simp [hurl]
          · simp
          · intro _
            refine ⟨by simp [updateEmailStatus], reason_nonempty_stored row _ ?_⟩
            intro hcontr
            have := congrArg String.length hcontr
            simp [String.length_append] at this
            exact absurd this.1 (by decide)
        | ok u =>
          cases hsend : env.sendMailResult with
          | ok i =>
            refine ⟨rfl, ?_, ?_, ?_⟩
            · simp [hcred, hrec, hkey, hurl, hsend]
            · intro _
              simp [updateEmailStatus]
            · simp
          | error e =>
            refine ⟨rfl, ?_, ?_, ?_⟩
            · simp [hsend]
            · simp
            · intro _
              refine ⟨by simp [updateEmailStatus], reason_nonempty_stored _ _ ?_⟩
              intro hcontr
              have := congrArg String.length hcontr
              simp [String.length_append] at this
              exact absurd this.1 (by decide)

/-- Witness for C8: a concrete call with every external collaborator
succeeding returns `true`, records `SENT`, and leaves the processing status
alone. -/
theorem email_dispatch_never_fatal_witness :
    (sendCompletionEmail
        ⟨some "bot@example.com", some "app-password", .ok "https://signed", .ok "id1"⟩
        (some "user@example.com") (some "reports/r.pdf")
        ⟨.COMPLETED, none, none⟩).2.processing_status
      = (⟨.COMPLETED, none, none⟩ : JobEmailRow).processing_status ∧
    ((sendCompletionEmail
        ⟨some "bot@example.com", some "app-password", .ok "https://signed", .ok "id1"⟩
        (some "user@example.com") (some "reports/r.pdf")
        ⟨.COMPLETED, none, none⟩).1 = true ↔
      ((some "bot@example.com" : Option String) ≠ none ∧
        (some "app-password" : Option String) ≠ none ∧
        (some "user@example.com" : Option String) ≠ none ∧
        (some "reports/r.pdf" : Option String) ≠ none ∧
        (∃ u, (.ok "https://signed" : Except String String) = .ok u) ∧
        (∃ i, (.ok "id1" : Except String String) = .ok i))) ∧
    ((sendCompletionEmail
        ⟨some "bot@example.com", some "app-password", .ok "https://signed", .ok "id1"⟩
        (some "user@example.com") (some "reports/r.pdf")
        ⟨.COMPLETED, none, none⟩).1 = true →
      (sendCompletionEmail
        ⟨some "bot@example.com", some "app-password", .ok "https://signed", .ok "id1"⟩
        (some "user@example.com") (some "reports/r.pdf")
        ⟨.COMPLETED, none, none⟩).2.email_status = some .SENT) ∧
    ((sendCompletionEmail
        ⟨some "bot@example.com", some "app-password", .ok "https://signed", .ok "id1"⟩
        (some "user@example.com") (some "reports/r.pdf")
        ⟨.COMPLETED, none, none⟩).1 = false →
      (sendCompletionEmail
        ⟨some "bot@example.com", some "app-password", .ok "https://signed", .ok "id1"⟩
        (some "user@example.com") (some "reports/r.pdf")
        ⟨.COMPLETED, none, none⟩).2.email_status = some .FAILED ∧
      (sendCompletionEmail
        ⟨some "bot@example.com", some "app-password", .ok "https://signed", .ok "id1"⟩
        (some "user@example.com") (some "reports/r.pdf")
        ⟨.COMPLETED, none, none⟩).2.email_failure_reason ≠ none) :=
  email_dispatch_never_fatal
    ⟨some "bot@example.com", some "app-password", .ok "https://signed", .ok "id1"⟩
    (some "user@example.com") (some "reports/r.pdf") ⟨.COMPLETED, none, none⟩

/-! ## C10: `sanitizeJsonString` (`analyzeWithGemini.js` lines 11–60)

`JSON.parse` succeeding is modelled by the executable validity checker
`jsonParses`, a recursive-descent parser of the JSON grammar (json.org): the
exact strings accepted by the repair pass do not matter to the claims, only
that every `return` site of `sanitizeJsonString` is guarded by a successful
parse.  The three regex repairs are transcribed as scanning functions:
the control-character strip `/[\x00-\x1F\x7F-\x9F]/g`, the quote repair
`/(\\*")(.*?)(")/g` (whose replacement always rewrites the match — the
`p1 === '\\"' && p3 === '\\"'` guard can never hold since `p3` is the single
closing-quote character — re-escaping the lazily matched, line-break-free
content), and the key-quoting `/(\s*?{\s*?|\s*?,\s*?)(['"])?([a-zA-Z0-9_]+)(['"])?:/g`
(scanning from each `{`/`,`; the lazy leading `\s*?` only shifts whitespace
into the preserved `$1`, so output is unchanged by folding it into the scan). -/

def isJsonWs (c : Char) : Bool := c = ' ' || c = '\t' || c = '\n' || c = '\r'

def skipWs (l : List Char) : List Char := l.dropWhile isJsonWs

def isHexDigit (c : Char) : Bool :=
  c.isDigit || ('a' ≤ c && c ≤ 'f') || ('A' ≤ c && c ≤ 'F')

/-- JSON string body after the opening quote: escapes, `\uXXXX`, no raw
control characters; returns the rest after the closing quote. -/
def parseStringBody : List Char → Option (List Char)
  | [] => none
  | '"' :: rest => some rest
  | '\\' :: rest =>
    match rest with
    | [] => none
    | e :: rest' =>
      if e = '"' ∨ e = '\\' ∨ e = '/' ∨ e = 'b' ∨ e = 'f' ∨ e = 'n' ∨ e = 'r' ∨ e = 't' then
        parseStringBody rest'
      else if e = 'u' then
        match rest' with
        | a :: b :: c :: d :: rest'' =>
          if isHexDigit a && isHexDigit b && isHexDigit c && isHexDigit d then
            parseStringBody rest''
          else none
        | _ => none
      else none
  | c :: rest => if c.toNat < 32 then none else parseStringBody rest

def parseDigits (l : List Char) : Option (List Char) :=
  if (l.takeWhile Char.isDigit).isEmpty then none
  else some (l.dropWhile Char.isDigit)

/-- JSON integer part: `0` alone or a nonzero digit followed by digits. -/
def parseIntPart : List Char → Option (List Char)
  | '0' :: rest => some rest
  | c :: rest => if c.isDigit then some (rest.dropWhile Char.isDigit) else none
  | [] => none

def parseFrac : List Char → Option (List Char)
  | '.' :: r => parseDigits r
  | l => some l

def parseExp : List Char → Option (List Char)
  | c :: r =>
    if c = 'e' ∨ c = 'E' then
      match r with
      | s :: r' => if s = '+' ∨ s = '-' then parseDigits r' else parseDigits (s :: r')
      | [] => none
    else some (c :: r)
  | [] => some []

def parseNumber (l : List Char) : Option (List Char) :=
  (match l with
   | '-' :: r => parseIntPart r
   | _ => parseIntPart l).bind fun r1 => (parseFrac r1).bind parseExp

mutual

/-- One JSON value; the fuel bounds the nesting depth (every recursive call
consumes at least one character first, so `length + 1` fuel never runs out on
the initial call). -/
def parseVal : ℕ → List Char → Option (List Char)
  | 0, _ => none
  | fuel + 1, l =>
    match l with
    | '{' :: r =>
      match skipWs r with
      | '}' :: r2 => some r2
      | r1 => parseMembers fuel r1
    | '[' :: r =>
      match skipWs r with
      | ']' :: r2 => some r2
      | r1 => parseElems fuel r1
    | '"' :: r => parseStringBody r
    | 't' :: 'r' :: 'u' :: 'e' :: r => some r
    | 'f' :: 'a' :: 'l' :: 's' :: 'e' :: r => some r
    | 'n' :: 'u' :: 'l' :: 'l' :: r => some r
    | c :: _ => if c = '-' ∨ c.isDigit then parseNumber l else none
    | [] => none

/-- Members of a JSON object: `member (',' member)*` up to the closing brace. -/
def parseMembers : ℕ → List Char → Option (List Char)
  | 0, _ => none
  | fuel + 1, l =>
    match skipWs l with
    | '"' :: r =>
      match parseStringBody r with
      | some r2 =>
        match skipWs r2 with
        | ':' :: r3 =>
          match parseVal fuel (skipWs r3) with
          | some r4 =>
            match skipWs r4 with
            | ',' :: r5 => parseMembers fuel r5
            | '}' :: r5 => some r5
            | _ => none
          | none => none
        | _ => none
      | none => none
    | _ => none

/-- Elements of a JSON array: `element (',' element)*` up to the closing bracket. -/
def parseElems : ℕ → List Char → Option (List Char)
  | 0, _ => none
  | fuel + 1, l =>
    match parseVal fuel (skipWs l) with
    | some r =>
      match skipWs r with
      | ',' :: r2 => parseElems fuel r2
      | ']' :: r2 => some r2
      | _ => none
    | none => none

end

/-- Whether `JSON.parse(s)` succeeds: one JSON value surrounded by whitespace,
consuming the whole input. -/
def jsonParses (s : String) : Bool :=
  match parseVal (s.length + 1) (skipWs s.toList) with
  | some r => (skipWs r).isEmpty
  | none => false

/-- The `/[\x00-\x1F\x7F-\x9F]/g` strip. -/
def removeControlChars (l : List Char) : List Char :=
  l.filter (fun c => !(c.toNat ≤ 0x1F || (0x7F ≤ c.toNat && c.toNat ≤ 0x9F)))

/-- The replacement callback's re-escaping of the matched content. -/
def escapeQuoteContent (l : List Char) : List Char :=
  l.flatMap (fun c =>
    if c = '\\' then ['\\', '\\'] else if c = '"' then ['\\', '"'] else [c])

/-- The lazy `(.*?)(")` tail: shortest line-break-free run up to the next
quote (`.` does not match line terminators). -/
def findCloseQuote : List Char → Option (List Char × List Char)
  | [] => none
  | '"' :: r => some ([], r)
  | c :: r =>
    if c = '\n' ∨ c = '\r' then none
    else (findCloseQuote r).map (fun p => (c :: p.1, p.2))

/-- Global scan of `/(\\*")(.*?)(")/g`: at each position, a greedy backslash
run followed by a quote and a lazily closed content is rewritten to the
re-escaped quoted content (dropping the leading backslashes, as the callback
does); otherwise the scan advances one character. -/
def fixQuotesGo : ℕ → List Char → List Char
  | 0, l => l
  | _fuel + 1, [] => []
  | fuel + 1, c :: rest =>
    match (c :: rest).dropWhile (· = '\\') with
    | '"' :: tail =>
      match findCloseQuote tail with
      | some (content, rest') =>
        '"' :: (escapeQuoteContent content ++ '"' :: fixQuotesGo fuel rest')
      | none => c :: fixQuotesGo fuel rest
    | _ => c :: fixQuotesGo fuel rest

def fixQuotes (l : List Char) : List Char := fixQuotesGo (l.length + 1) l

def jsWs (c : Char) : Bool := c.isWhitespace

def isWordChar (c : Char) : Bool := c.isAlpha || c.isDigit || c = '_'

/-- After a `{` or `,`: optional whitespace, an optionally quoted key word,
and the colon — the groups of `(\s*?)(['"])?([a-zA-Z0-9_]+)(['"])?:`. -/
def matchKeyAfter (l : List Char) : Option (List Char × List Char × List Char) :=
  let ws := l.takeWhile jsWs
  let l1 := l.dropWhile jsWs
  let l2 := match l1 with
    | c :: r => if c = '\'' ∨ c = '"' then r else c :: r
    | [] => []
  let word := l2.takeWhile isWordChar
  if word.isEmpty then none
  else
    let l3 := l2.dropWhile isWordChar
    let l4 := match l3 with
      | c :: r => if c = '\'' ∨ c = '"' then r else c :: r
      | [] => []
    match l4 with
    | ':' :: r => some (ws, word, r)
    | _ => none

/-- Global scan of the key-quoting regex: rewrite each matched key to
`$1"$3":`. -/
def quoteKeysGo : ℕ → List Char → List Char
  | 0, l => l
  | _fuel + 1, [] => []
  | fuel + 1, c :: rest =>
    if c = '{' ∨ c = ',' then
      match matchKeyAfter rest with
      | some (ws, word, r) =>
        c :: (ws ++ '"' :: (word ++ '"' :: ':' :: quoteKeysGo fuel r))
      | none => c :: quoteKeysGo fuel rest
    else c :: quoteKeysGo fuel rest

def quoteKeys (l : List Char) : List Char := quoteKeysGo (l.length + 1) l

/-- Model of the greedy brace extraction match: greedily from the first `{` to the last
`}` at or after it. -/
def extractBraces (s : String) : Option String :=
  match s.toList.dropWhile (· ≠ '{') with
  | [] => none
  | l =>
    match l.reverse.dropWhile (· ≠ '}') with
    | [] => none
    | r => some (String.mk r.reverse)

/-- The function `sanitizeJsonString`: return already-valid input unchanged; otherwise run
the three repairs and return the result if it now parses; otherwise extract
the brace-delimited substring of the **original** input and return it if it
parses; otherwise throw. -/
def sanitizeJsonString (jsonString : String) : Except String String :=
  if jsonParses jsonString then .ok jsonString
  else
    let sanitized₁ := String.mk (removeControlChars jsonString.toList)
    let sanitized₂ := String.mk (fixQuotes sanitized₁.toList)
    let sanitized₃ := String.mk (quoteKeys sanitized₂.toList)
    if jsonParses sanitized₃ then .ok sanitized₃
    else
      match extractBraces jsonString with
      | some extracted =>
        if jsonParses extracted then .ok extracted
        else .error "Unable to sanitize malformed JSON"
      | none => .error "Unable to extract valid JSON structure"

/-- C10: the JSON repair pass is the identity on every already-valid input,
and whatever string it returns without throwing parses as valid JSON. -/
theorem sanitize_identity_and_valid_output (s : String) :
    (jsonParses s = true → sanitizeJsonString s = .ok s) ∧
    (∀ t, sanitizeJsonString s = .ok t → jsonParses t = true) := by
  constructor
  · intro h
    simp [sanitizeJsonString, h]
  · intro t h
    simp only [sanitizeJsonString] at h
    by_cases h1 : jsonParses s
    · rw [if_pos h1] at h
      injection h with h'
      subst h'
      exact h1
    · rw [if_neg h1] at h
      by_cases h2 : jsonParses (String.mk (quoteKeys
          (String.mk (fixQuotes (String.mk (removeControlChars s.toList)).toList)).toList))
      · rw [if_pos h2] at h
        injection h with h'
        subst h'
        exact h2
      · rw [if_neg h2] at h
        split at h
        · split at h
          · injection h with h'
            subst h'
            assumption
          · cases h
        · cases h

/-- Witness for C10: a concrete already-valid response string is returned
unchanged. -/
theorem sanitize_identity_and_valid_output_witness :
    sanitizeJsonString "\x7b\"recommendation\": \"Hold\"\x7d"
      = .ok "\x7b\"recommendation\": \"Hold\"\x7d" :=
  (sanitize_identity_and_valid_output "\x7b\"recommendation\": \"Hold\"\x7d").1 (by decide)

end InvestAnalyzer
